import Mathlib

/-!
Verification of the hex-engine tile-level loading and spatial-grid core.

The development shallowly embeds:
  * `Grid<T>` (dense 2D container: bounds-checked get/set, default fill,
    bulk row-wrapped load, contents traversal),
  * the Ogmo project / level parsing and layer realization logic.

JS numbers used as array sizes and loop counters are embedded as `Nat`,
coordinates handed to `get`/`set` as `Int` (out-of-range and negative
coordinates are semantically relevant), and free numeric payload values
as `Rat`.  A JS value that may be `undefined` is embedded as `Option`.
Mutation plus exceptions is embedded as state passing: a mutating method
that may throw returns the state after the call together with an optional
error message (`Grid T × Option String`).
-/

set_option autoImplicit false

namespace HexEngine

/-- `Point` as used for grid extents: a pair of non-negative integers.
The source's `Point` carries arbitrary numbers; grid construction only
ever consumes non-negative integer extents. -/
structure Point where
  x : Nat
  y : Nat
  deriving DecidableEq, Repr

/-- The single-quote character, used to reproduce the exact error
message strings of the source. -/
def sq : String := (Char.ofNat 39).toString

/-- `Grid<T>`: `size` (width `x`, height `y`), dense `data` storage
addressed as `data[column][row]`, and the `defaultValue`. -/
structure Grid (T : Type) where
  size : Point
  data : List (List T)
  defaultValue : T
  deriving DecidableEq, Repr

namespace Grid

variable {T : Type}

/-- Well-formedness of the dense store: exactly `size.y` rows of exactly
`size.x` cells.  The source maintains this by construction; the embedding
states it explicitly because Lean lists are not fixed-length. -/
def Wf (g : Grid T) : Prop :=
  g.data.length = g.size.y ∧ ∀ r ∈ g.data, r.length = g.size.x

instance (g : Grid T) : Decidable g.Wf := by
  unfold Wf; infer_instance

/-- The common tail of the constructor, once `rows`, `columns` and
`defaultValue` have been extracted from the overloaded arguments:

    this.data = Array(columns).fill(defaultValue).map(() => Array(rows).fill(defaultValue));
    this.defaultValue = defaultValue;
    this.size = new Point(rows, columns);
-/
def make (rows columns : Nat) (defaultValue : T) : Grid T :=
  { size := ⟨rows, columns⟩
    data := List.replicate columns (List.replicate rows defaultValue)
    defaultValue := defaultValue }

/-- The constructor reached through the `(rows, columns, defaultValue)`
overload: both leading arguments are numbers, so the first dispatch branch
runs and `defaultValue = maybeDefaultValue!`, i.e. the third argument. -/
def constructRC (rows columns : Nat) (dv : T) : Grid (Option T) :=
  make rows columns (some dv)

/-- The constructor reached through the `(rowsAndCols: Point, defaultValue)`
overload: the first argument is not a number, so the `else` dispatch branch
runs with `rows = point.x`, `columns = point.y`, and
`defaultValue = maybeDefaultValue as T` — the *third* argument, which this
two-argument overload never supplies, hence `undefined` (`none`).  The
second argument `dv` (declared `defaultValue: T` in the overload signature)
is ignored by the implementation. -/
def constructPt (extent : Point) (dv : T) : Grid (Option T) :=
  make extent.x extent.y none

/-- The exact message of the out-of-bounds `set` error:

    `Attempted to set data into grid of size '${x}, ${y}' at out-of-bounds index: ${row}, ${column}`
-/
def oobMessage (sx sy : Nat) (row column : Int) : String :=
  "Attempted to set data into grid of size " ++ sq ++ toString sx ++ ", "
    ++ toString sy ++ sq ++ " at out-of-bounds index: " ++ toString row
    ++ ", " ++ toString column

/-- The bounds test shared verbatim by `get` and `set`:

    row > this.size.x - 1 || row < 0 || column > this.size.y - 1 || column < 0
-/
def OOB (g : Grid T) (row column : Int) : Prop :=
  row > (g.size.x : Int) - 1 ∨ row < 0 ∨
    column > (g.size.y : Int) - 1 ∨ column < 0

instance (g : Grid T) (row column : Int) : Decidable (g.OOB row column) := by
  unfold OOB; infer_instance

/-- `get(row, column)`: out-of-range reads fall back to `defaultValue`,
in-range reads return `this.data[column][row]`.  The in-range list access
is totalized with `getD`; on a well-formed grid the fallback of an
in-range read is never reached. -/
def get (g : Grid T) (row column : Int) : T :=
  if g.OOB row column then
    g.defaultValue
  else
    (g.data.getD column.toNat []).getD row.toNat g.defaultValue

/-- `set(row, column, value)`: the bounds check precedes the write, so a
failing call throws and leaves the grid untouched; an in-bounds call
assigns `this.data[column][row] = value` and throws nothing.  The result
pairs the state after the call with the thrown message, if any. -/
def set (g : Grid T) (row column : Int) (value : T) : Grid T × Option String :=
  if g.OOB row column then
    (g, some (oobMessage g.size.x g.size.y row column))
  else
    ({ g with
        data := g.data.set column.toNat
          ((g.data.getD column.toNat []).set row.toNat value) },
      none)

/-- The loop body of `setData`, with the `currentX`/`currentY` cursor made
explicit.  Each iteration first wraps the cursor when `currentX + 1`
would exceed `size.x`, then performs the (possibly throwing) `set`, then
advances the column.  A thrown error aborts the loop with the state the
failing `set` left behind. -/
def setDataAux : Grid T → Nat → Nat → List T → Grid T × Option String
  | g, _, _, [] => (g, none)
  | g, x, y, item :: rest =>
    let p : Nat × Nat := if x + 1 > g.size.x then (0, y + 1) else (x, y)
    match g.set p.1 p.2 item with
    | (g2, some e) => (g2, some e)
    | (g2, none) => setDataAux g2 (p.1 + 1) p.2 rest

/-- `setData(data)`: bulk row-wrapped load starting from cursor `(0, 0)`. -/
def setData (g : Grid T) (data : List T) : Grid T × Option String :=
  setDataAux g 0 0 data

/-- `contents()`: the generator yields `[i, j, this.get(i, j)]` for
`i` in `[0, size.x)` (outer loop) and `j` in `[0, size.y)` (inner loop).
Embedded as the finite list of yielded triples; a generator re-created on
each call has no state shared between traversals, which the pure list
renders exactly. -/
def contents (g : Grid T) : List (Nat × Nat × T) :=
  (List.range g.size.x).flatMap fun i =>
    (List.range g.size.y).map fun j => (i, j, g.get i j)

end Grid

/-! ### Ogmo project / level model -/

/-- JSON-like values: the opaque custom `values` payloads that the loader
passes through without inspecting. -/
inductive Json where
  | null
  | bool (b : Bool)
  | num (q : Rat)
  | str (s : String)
  | arr (elems : List Json)
  | obj (fields : List (String × Json))

/-- 2D vector of JS numbers (`Vector` in the source; an opaque value
carrier for positions, sizes and scales). -/
structure Vec where
  x : Rat
  y : Rat
  deriving DecidableEq, Repr

/-- `OgmoEntityData`: one entity placement record from the level json.
The `_eid` field is embedded as `eid`; optional fields as `Option`. -/
structure OgmoEntityData where
  name : String
  id : Int
  eid : String
  x : Rat
  y : Rat
  width : Option Rat
  height : Option Rat
  originX : Option Rat
  originY : Option Rat
  rotation : Option Rat
  flippedX : Option Bool
  flippedY : Option Bool
  values : Option Json

/-- `OgmoDecalData`: one decal placement record from the level json. -/
structure OgmoDecalData where
  x : Rat
  y : Rat
  scaleX : Option Rat
  scaleY : Option Rat
  rotation : Option Rat
  texture : String
  values : Option Json

/-- `OgmoTileset`: a tileset after project parsing, with the pixel
dimensions normalized into vectors. -/
structure OgmoTileset where
  label : String
  path : String
  tileSize : Vec
  tileSeparation : Vec
  deriving DecidableEq, Repr

/-- A project layer definition after parsing: the four-way tagged union
`OgmoProjectTileLayer | OgmoProjectGridLayer | OgmoProjectEntityLayer |
OgmoProjectDecalLayer`.  A tile layer carries its *resolved* default
tileset. -/
inductive OgmoProjectLayer where
  | tile (name : String) (gridSize : Vec) (exportID : String)
      (exportMode : Int) (arrayMode : Int) (defaultTileset : OgmoTileset)
  | grid (name : String) (gridSize : Vec) (exportID : String)
      (arrayMode : Int) (legend : List (String × String))
  | entity (name : String) (gridSize : Vec) (exportID : String)
      (requiredTags : List String) (excludedTags : List String)
  | decal (name : String) (gridSize : Vec) (exportID : String)
      (includeImageSequence : Bool) (scaleable : Bool) (rotatable : Bool)
      (values : List Json)

/-- The `exportID` shared by all four layer kinds. -/
def OgmoProjectLayer.exportID : OgmoProjectLayer → String
  | .tile _ _ e _ _ _ => e
  | .grid _ _ e _ _ => e
  | .entity _ _ e _ _ => e
  | .decal _ _ e _ _ _ _ => e

/-- The resolved default tileset of a tile-kind layer definition. -/
def OgmoProjectLayer.defaultTilesetOf : OgmoProjectLayer → Option OgmoTileset
  | .tile _ _ _ _ _ t => some t
  | _ => none

/-- The `definition` discriminator of a raw project layer.  The TS input
type is the union of the four layer record types, so the discriminator
ranges over exactly these four kinds. -/
inductive OgmoLayerKind where
  | tile | grid | entity | decal
  deriving DecidableEq, Repr

/-- A raw project layer record from `projectData.layers`.  All
kind-specific fields live side by side here; each parsing branch reads
only the ones belonging to its kind.  `gridSize` is already the
structured point `Vector.from(layer.gridSize)` produces. -/
structure RawProjectLayer where
  definition : OgmoLayerKind
  name : String
  gridSize : Vec
  exportID : String
  exportMode : Int
  arrayMode : Int
  defaultTileset : String
  legend : List (String × String)
  requiredTags : List String
  excludedTags : List String
  includeImageSequence : Bool
  scaleable : Bool
  rotatable : Bool
  values : List Json

/-- A raw tileset record from `projectData.tilesets`. -/
structure RawTileset where
  label : String
  path : String
  tileWidth : Rat
  tileHeight : Rat
  tileSeparationX : Rat
  tileSeparationY : Rat

/-- The embedding of a JS `array.map((x, index) => ...)` whose callback
may throw: elements are processed left to right and the first thrown
error aborts the whole map. -/
def mapIdxE {α β : Type} (f : Nat → α → Except String β) :
    Nat → List α → Except String (List β)
  | _, [] => .ok []
  | index, a :: rest =>
    match f index a with
    | .error e => .error e
    | .ok b =>
      match mapIdxE f (index + 1) rest with
      | .error e => .error e
      | .ok others => .ok (b :: others)

/-- Tileset parsing: copied 1:1 with the pixel dimension pairs
normalized into vectors. -/
def parseTileset (tileset : RawTileset) : OgmoTileset :=
  { label := tileset.label
    path := tileset.path
    tileSize := ⟨tileset.tileWidth, tileset.tileHeight⟩
    tileSeparation := ⟨tileset.tileSeparationX, tileset.tileSeparationY⟩ }

/-- The exact message thrown for an unresolved default tileset:

    `Ogmo layer ${index} referenced non-existent default tileset: '${layer.defaultTileset}'`
-/
def unresolvedTilesetMessage (index : Nat) (label : String) : String :=
  "Ogmo layer " ++ toString index
    ++ " referenced non-existent default tileset: " ++ sq ++ label ++ sq

/-- One step of `project.layers = projectData.layers.map(...)`: dispatch
on the `definition` discriminator; the tile branch resolves
`defaultTileset` by label among the parsed tilesets and throws when the
lookup fails. -/
def parseProjectLayer (tilesets : List OgmoTileset) (index : Nat)
    (layer : RawProjectLayer) : Except String OgmoProjectLayer :=
  match layer.definition with
  | .tile =>
    match tilesets.find? (fun tileset => tileset.label == layer.defaultTileset) with
    | none => .error (unresolvedTilesetMessage index layer.defaultTileset)
    | some tileset =>
      .ok (.tile layer.name layer.gridSize layer.exportID
        layer.exportMode layer.arrayMode tileset)
  | .grid =>
    .ok (.grid layer.name layer.gridSize layer.exportID
      layer.arrayMode layer.legend)
  | .entity =>
    .ok (.entity layer.name layer.gridSize layer.exportID
      layer.requiredTags layer.excludedTags)
  | .decal =>
    .ok (.decal layer.name layer.gridSize layer.exportID
      layer.includeImageSequence layer.scaleable layer.rotatable layer.values)

/-- The indexed map over `projectData.layers`; the first thrown error
aborts the construction. -/
def parseProjectLayers (tilesets : List OgmoTileset)
    (layers : List RawProjectLayer) : Except String (List OgmoProjectLayer) :=
  mapIdxE (parseProjectLayer tilesets) 0 layers

/-- Raw `*.ogmo` project data: the two arrays the parser reads. -/
structure RawProject where
  tilesets : List RawTileset
  layers : List RawProjectLayer

/-- The parsed project: `tilesets` and `layers` as exposed by
`Ogmo.Project`. -/
structure OgmoProjectData where
  tilesets : List OgmoTileset
  layers : List OgmoProjectLayer

/-- `Ogmo.Project` construction: parse the tilesets, then the layer
definitions (which resolve tileset references against the parsed
tilesets).  A thrown error propagates out of construction; no partial
project is returned. -/
def ogmoProject (projectData : RawProject) : Except String OgmoProjectData :=
  let tilesets := projectData.tilesets.map parseTileset
  match parseProjectLayers tilesets projectData.layers with
  | .error e => .error e
  | .ok layers => .ok { tilesets := tilesets, layers := layers }

/-- The exact message thrown by `project.createEntity` when no factory is
registered for the entity name:

    `No Ogmo entity factory defined for: ${data.name}`
-/
def noFactoryMessage (name : String) : String :=
  "No Ogmo entity factory defined for: " ++ name

/-- `project.createEntity`: look up `entityFactories[data.name]`; invoke
the factory on the record when present, throw otherwise.  The factory
map is embedded as an association list (first binding wins); the type of
created entity handles is an opaque parameter `E`. -/
def createEntity {E : Type}
    (entityFactories : List (String × (OgmoEntityData → E)))
    (data : OgmoEntityData) : Except String E :=
  match entityFactories.find? (fun p => p.1 == data.name) with
  | some factoryForName => .ok (factoryForName.2 data)
  | none => .error (noFactoryMessage data.name)

/-- A raw level layer instance from `levelData.layers`.  `_eid` is
embedded as `eid`; `data` / `grid` / `entities` / `decals` are the
kind-specific payloads read by the branch the resolved definition
selects. -/
structure RawLevelLayer where
  eid : String
  gridCellsX : Nat
  gridCellsY : Nat
  data : List Int
  grid : List String
  entities : List OgmoEntityData
  decals : List OgmoDecalData

/-- A resolved level layer: the `OgmoLevelLayer` union, pairing the
resolved project layer definition with the materialized payload. -/
inductive OgmoLevelLayer where
  | tile (projectLayer : OgmoProjectLayer) (data : Grid Int)
  | grid (projectLayer : OgmoProjectLayer) (grid : Grid String)
  | entity (projectLayer : OgmoProjectLayer) (entities : List OgmoEntityData)
  | decal (projectLayer : OgmoProjectLayer) (decals : List OgmoDecalData)

/-- The resolved project layer definition carried by a level layer. -/
def OgmoLevelLayer.projectLayer : OgmoLevelLayer → OgmoProjectLayer
  | .tile pl _ => pl
  | .grid pl _ => pl
  | .entity pl _ => pl
  | .decal pl _ => pl

/-- The exact message thrown for an unresolved level layer:

    `Ogmo level layer ${index} referenced non-existent project layer with exportID ${layer._eid}`
-/
def unresolvedLayerMessage (index : Nat) (eid : String) : String :=
  "Ogmo level layer " ++ toString index
    ++ " referenced non-existent project layer with exportID " ++ eid

/-- One step of the `levelData.layers.map(...)` in `OgmoLevel`: find the
project layer whose `exportID` equals the instance's `_eid` (throwing
when there is none), then dispatch on the found definition's kind.  The
tile and grid branches allocate a grid sized `gridCellsX × gridCellsY`
(defaults `0` and `""`) and bulk-load it with `setData`, whose thrown
errors also abort resolution. -/
def resolveLevelLayer (projectLayers : List OgmoProjectLayer) (index : Nat)
    (layer : RawLevelLayer) : Except String OgmoLevelLayer :=
  match projectLayers.find? (fun projectLayer => projectLayer.exportID == layer.eid) with
  | none => .error (unresolvedLayerMessage index layer.eid)
  | some projectLayer =>
    match projectLayer with
    | .tile .. =>
      let r := (Grid.make layer.gridCellsX layer.gridCellsY 0).setData layer.data
      match r.2 with
      | some e => .error e
      | none => .ok (.tile projectLayer r.1)
    | .grid .. =>
      let r := (Grid.make layer.gridCellsX layer.gridCellsY "").setData layer.grid
      match r.2 with
      | some e => .error e
      | none => .ok (.grid projectLayer r.1)
    | .entity .. => .ok (.entity projectLayer layer.entities)
    | .decal .. => .ok (.decal projectLayer layer.decals)

/-- The indexed map building the level layer list; the first thrown
error aborts level construction. -/
def resolveLevelLayers (projectLayers : List OgmoProjectLayer)
    (layers : List RawLevelLayer) : Except String (List OgmoLevelLayer) :=
  mapIdxE (resolveLevelLayer projectLayers) 0 layers

/-- Raw level data: the fields `OgmoLevel` reads. -/
structure RawLevel where
  width : Rat
  height : Rat
  offsetX : Rat
  offsetY : Rat
  values : Option Json
  layers : List RawLevelLayer

/-- The `OgmoLevelApi` value `OgmoLevel` returns. -/
structure OgmoLevelData where
  size : Vec
  offset : Vec
  values : Option Json
  layers : List OgmoLevelLayer

/-- `Ogmo.Level` construction against a project's layer definitions:
resolve every raw layer (fatally on the first error), then expose size,
offset, values and the resolved layer list. -/
def ogmoLevel (projectLayers : List OgmoProjectLayer)
    (levelData : RawLevel) : Except String OgmoLevelData :=
  match resolveLevelLayers projectLayers levelData.layers with
  | .error e => .error e
  | .ok layers =>
    .ok { size := ⟨levelData.width, levelData.height⟩
          offset := ⟨levelData.offsetX, levelData.offsetY⟩
          values := levelData.values
          layers := layers }

/-- The record handed to `project.createEntity` by the entity-layer
realization loop:

    { ...entData, rotation: entData.rotation ? entData.rotation * (Math.PI / 180) : 0 }

A truthy (present, non-zero) rotation is converted from degrees to
radians; an absent or zero rotation becomes `0`.  `Math.PI` is the
opaque numeric parameter `pi`. -/
def realizeEntityPlacement (pi : Rat) (entData : OgmoEntityData) : OgmoEntityData :=
  { entData with
      rotation := some (match entData.rotation with
        | some r => if r = 0 then 0 else r * (pi / 180)
        | none => 0) }

/-- The entity-layer realization loop: each placement record is rewritten
by `realizeEntityPlacement` and handed to `project.createEntity`; a
missing factory aborts realization fatally. -/
def realizeEntityLayer {E : Type} (pi : Rat)
    (entityFactories : List (String × (OgmoEntityData → E)))
    (entities : List OgmoEntityData) : Except String (List E) :=
  entities.mapM fun entData =>
    createEntity entityFactories (realizeEntityPlacement pi entData)

/-- The decal-layer realization loop: each placement record is handed to
`project.createDecal` unchanged. -/
def realizeDecalLayer {E : Type} (createDecal : OgmoDecalData → E)
    (decals : List OgmoDecalData) : List E :=
  decals.map fun decalData => createDecal decalData

/-- The arguments `Ogmo.Decal` passes to its `Geometry` component: a 1×1
placeholder rectangle (embedded by its extents), the decal position, the
decal's raw rotation value unchanged, and the scale with `?? 1`
defaults. -/
structure GeometryInit where
  shape : Vec
  position : Vec
  rotation : Option Rat
  scale : Vec

/-- The `Geometry` initialization performed by the default decal
realizer `OgmoDecal`. -/
def ogmoDecalGeometry (decalData : OgmoDecalData) : GeometryInit :=
  { shape := ⟨1, 1⟩
    position := ⟨decalData.x, decalData.y⟩
    rotation := decalData.rotation
    scale := ⟨decalData.scaleX.getD 1, decalData.scaleY.getD 1⟩ }

/-! ### Concrete fixtures, used to instantiate the theorems -/

/-- A concrete entity placement record. -/
def sampleEntity (name : String) : OgmoEntityData :=
  { name := name, id := 1, eid := "e1", x := 0, y := 0, width := none,
    height := none, originX := none, originY := none, rotation := none,
    flippedX := none, flippedY := none, values := none }

/-- A concrete tileset. -/
def sampleTileset (label : String) : RawTileset :=
  { label := label, path := "tiles.png", tileWidth := 8, tileHeight := 8,
    tileSeparationX := 0, tileSeparationY := 0 }

/-- A concrete entity-kind project layer definition. -/
def sampleProjectEntityLayer (exportID : String) : OgmoProjectLayer :=
  .entity "entities" ⟨8, 8⟩ exportID [] []

/-- A concrete raw level layer instance. -/
def sampleRawLevelLayer (eid : String) : RawLevelLayer :=
  { eid := eid, gridCellsX := 1, gridCellsY := 1, data := [], grid := [],
    entities := [], decals := [] }

/-- A concrete raw level. -/
def sampleRawLevel (layers : List RawLevelLayer) : RawLevel :=
  { width := 16, height := 16, offsetX := 0, offsetY := 0, values := none,
    layers := layers }

/-- A concrete tile-kind raw project layer record. -/
def sampleRawTileLayer (defaultTileset : String) : RawProjectLayer :=
  { definition := .tile, name := "tiles", gridSize := ⟨8, 8⟩, exportID := "t1",
    exportMode := 0, arrayMode := 0, defaultTileset := defaultTileset,
    legend := [], requiredTags := [], excludedTags := [],
    includeImageSequence := false, scaleable := false, rotatable := false,
    values := [] }

end HexEngine

/-! ## Helper lemmas -/

namespace HexEngine

namespace Grid

variable {T : Type}

theorem getD_of_lt {α : Type} (l : List α) (n : Nat) (d : α) (h : n < l.length) :
    l.getD n d = l[n] := by
  rw [List.getD_eq_getElem?_getD, List.getElem?_eq_getElem h]; rfl

theorem not_oob_iff {g : Grid T} {row column : Int} :
    ¬ g.OOB row column ↔
      0 ≤ row ∧ row < (g.size.x : Int) ∧ 0 ≤ column ∧ column < (g.size.y : Int) := by
  unfold OOB; omega

theorem size_make (w h : Nat) (d : T) : (make w h d).size = ⟨w, h⟩ := rfl

theorem defaultValue_make (w h : Nat) (d : T) : (make w h d).defaultValue = d := rfl

theorem wf_make (w h : Nat) (d : T) : (make w h d).Wf := by
  refine ⟨by simp [make], ?_⟩
  intro r hr
  simp only [make] at hr
  rw [List.eq_of_mem_replicate hr]
  simp [make]

/-- Every cell of a freshly constructed grid reads back as the default
value — as does every out-of-range read. -/
theorem get_make (w h : Nat) (d : T) (i j : Int) : (make w h d).get i j = d := by
  unfold get
  split
  · rfl
  · simp only [make, List.getD_eq_getElem?_getD, List.getElem?_replicate]
    split <;> simp

theorem get_oob {g : Grid T} {row column : Int} (h : g.OOB row column) :
    g.get row column = g.defaultValue := by
  unfold get
  rw [if_pos h]

theorem set_oob {g : Grid T} {row column : Int} (v : T) (h : g.OOB row column) :
    g.set row column v = (g, some (oobMessage g.size.x g.size.y row column)) := by
  unfold set
  rw [if_pos h]

theorem set_inb {g : Grid T} {row column : Int} (v : T) (h : ¬ g.OOB row column) :
    g.set row column v =
      ({ g with
          data := g.data.set column.toNat
            ((g.data.getD column.toNat []).set row.toNat v) }, none) := by
  unfold set
  rw [if_neg h]

theorem size_set_fst (g : Grid T) (row column : Int) (v : T) :
    (g.set row column v).1.size = g.size := by
  unfold set; split <;> rfl

theorem defaultValue_set_fst (g : Grid T) (row column : Int) (v : T) :
    (g.set row column v).1.defaultValue = g.defaultValue := by
  unfold set; split <;> rfl

theorem wf_set_fst {g : Grid T} (hwf : g.Wf) (row column : Int) (v : T) :
    (g.set row column v).1.Wf := by
  unfold set
  split
  · exact hwf
  · next hc =>
    obtain ⟨hlen, hrows⟩ := hwf
    refine ⟨by simpa using hlen, ?_⟩
    intro r hr
    rcases List.mem_or_eq_of_mem_set hr with hmem | heq
    · exact hrows r hmem
    · subst heq
      rw [List.length_set]
      have hcol : column.toNat < g.data.length := by
        rw [hlen]; rw [not_oob_iff] at hc; omega
      rw [getD_of_lt _ _ _ hcol]
      exact hrows _ (g.data.getElem_mem hcol)

/-- Reading after an in-bounds write: the written cell returns the new
value, every other cell is unchanged. -/
theorem get_set_fst {g : Grid T} (hwf : g.Wf) {row column : Int}
    (hin : ¬ g.OOB row column) (v : T) (r c : Int) :
    (g.set row column v).1.get r c =
      if r = row ∧ c = column then v else g.get r c := by
  obtain ⟨hlen, hrows⟩ := hwf
  have hb := not_oob_iff.mp hin
  have hcol : column.toNat < g.data.length := by rw [hlen]; omega
  have hrowlen : (g.data.getD column.toNat []).length = g.size.x := by
    rw [getD_of_lt _ _ _ hcol]
    exact hrows _ (g.data.getElem_mem hcol)
  rw [set_inb v hin]
  set g2 : Grid T :=
    { g with
        data := g.data.set column.toNat
          ((g.data.getD column.toNat []).set row.toNat v) } with hg2
  by_cases hoob : g.OOB r c
  · have hne : ¬(r = row ∧ c = column) := by
      rintro ⟨rfl, rfl⟩; exact hin hoob
    have hoob2 : g2.OOB r c := hoob
    rw [if_neg hne, get_oob hoob, get_oob hoob2, hg2]
  · have hb2 := not_oob_iff.mp hoob
    have hoob2 : ¬ g2.OOB r c := hoob
    unfold get
    rw [if_neg hoob2, if_neg hoob]
    simp only [hg2, List.getD_eq_getElem?_getD]
    by_cases hceq : c = column
    · subst hceq
      rw [List.getElem?_set_self hcol]
      simp only [Option.getD_some]
      have hrowlen2 : (g.data[c.toNat]?.getD ([] : List T)).length = g.size.x := by
        rw [← List.getD_eq_getElem?_getD]; exact hrowlen
      by_cases hreq : r = row
      · subst hreq
        rw [List.getElem?_set_self (by rw [hrowlen2]; omega), Option.getD_some]
        simp
      · have hne : r.toNat ≠ row.toNat := by omega
        rw [List.getElem?_set_ne (Ne.symm hne)]
        simp [hreq]
    · have hnec : c.toNat ≠ column.toNat := by omega
      rw [List.getElem?_set_ne (Ne.symm hnec)]
      simp [hceq]

/-- The combined behaviour of the `setData` loop from an arbitrary cursor
position `(x, y)` with `x ≤ w`.  Writing `n = y * w + x` for the linear
index of the cursor, the loop places the `k`-th remaining element at
linear index `n + k` (row-major with row-wrap on the width `w`), throws
nothing exactly when the input fits, and on overflow stops at the first
out-of-bounds `set`, keeping every cell written before the failure. -/
theorem setDataAux_spec {T : Type} {w h : Nat} (rest : List T) :
    ∀ (g : Grid T) (x y : Nat),
      g.Wf → g.size.x = w → g.size.y = h → x ≤ w → y * w + x ≤ w * h →
      (setDataAux g x y rest).1.size = g.size ∧
      (setDataAux g x y rest).1.defaultValue = g.defaultValue ∧
      (setDataAux g x y rest).1.Wf ∧
      ((setDataAux g x y rest).2 = none ↔ y * w + x + rest.length ≤ w * h) ∧
      (∀ i j : Nat, i < w → j < h →
        (setDataAux g x y rest).1.get i j =
          if y * w + x ≤ j * w + i ∧ j * w + i < y * w + x + rest.length ∧
              j * w + i < w * h
          then rest.getD (j * w + i - (y * w + x)) g.defaultValue
          else g.get i j) := by
  induction rest with
  | nil =>
    intro g x y hwf hsx hsy hx hn
    refine ⟨rfl, rfl, hwf, by simp [setDataAux, hn], ?_⟩
    intro i j hi hj
    rw [if_neg (by simp only [List.length_nil]; omega)]
    rfl
  | cons item rest ih =>
    intro g x y hwf hsx hsy hx hn
    rcases Nat.lt_or_ge (y * w + x) (w * h) with hlt | hge
    · -- the next placement is in bounds
      have hw : 0 < w := by
        rcases Nat.eq_zero_or_pos w with rfl | hw
        · simp at hlt
        · exact hw
      obtain ⟨px, py, hpeq, hpx, hpidx⟩ :
          ∃ px py,
            (if x + 1 > g.size.x then ((0:Nat), y + 1) else (x, y)) = (px, py) ∧
              px < w ∧ py * w + px = y * w + x := by
        by_cases hxw : x + 1 > g.size.x
        · refine ⟨0, y + 1, by rw [if_pos hxw], hw, ?_⟩
          rw [hsx] at hxw
          have hxeq : x = w := by omega
          subst hxeq
          ring
        · refine ⟨x, y, by rw [if_neg hxw], ?_, rfl⟩
          rw [hsx] at hxw; omega
      have hpy : py < h := by
        have h1 : py * w < w * h := by omega
        rw [Nat.mul_comm w h] at h1
        exact lt_of_mul_lt_mul_right h1 (Nat.zero_le w)
      have hin : ¬ g.OOB ↑px ↑py := by
        rw [not_oob_iff, hsx, hsy]
        refine ⟨by omega, by omega, by omega, by omega⟩
      obtain ⟨g2, hg2⟩ : ∃ g2, g.set ↑px ↑py item = (g2, none) := ⟨_, set_inb item hin⟩
      have hg2size : g2.size = g.size := by rw [← size_set_fst g ↑px ↑py item, hg2]
      have hg2def : g2.defaultValue = g.defaultValue := by
        rw [← defaultValue_set_fst g ↑px ↑py item, hg2]
      have hg2wf : g2.Wf := by
        have hs := wf_set_fst hwf ↑px ↑py item
        rwa [hg2] at hs
      have hg2get : ∀ r c : Int,
          g2.get r c = if r = ↑px ∧ c = ↑py then item else g.get r c := by
        intro r c
        have hs := get_set_fst hwf hin item r c
        rwa [hg2] at hs
      have hstep : setDataAux g x y (item :: rest) = setDataAux g2 (px + 1) py rest := by
        simp only [setDataAux, hpeq, hg2]
      obtain ⟨ihsize, ihdef, ihwf, ihiff, ihcells⟩ :=
        ih g2 (px + 1) py hg2wf (by rw [hg2size, hsx]) (by rw [hg2size, hsy])
          hpx (by omega)
      rw [hstep]
      refine ⟨by rw [ihsize, hg2size], by rw [ihdef, hg2def], ihwf, ?_, ?_⟩
      · rw [ihiff]
        simp only [List.length_cons]
        omega
      · intro i j hi hj
        rw [ihcells i j hi hj, hg2def, hg2get]
        have hidx : j * w + i = py * w + px ↔ i = px ∧ j = py := by
          constructor
          · intro he
            have hj2 : j = py := by
              rcases Nat.lt_trichotomy j py with hlt2 | heq2 | hgt2
              · exfalso
                have hmul : (j + 1) * w ≤ py * w := Nat.mul_le_mul_right w hlt2
                have hexp : (j + 1) * w = j * w + w := by ring
                omega
              · exact heq2
              · exfalso
                have hmul : (py + 1) * w ≤ j * w := Nat.mul_le_mul_right w hgt2
                have hexp : (py + 1) * w = py * w + w := by ring
                omega
            subst hj2
            exact ⟨by omega, rfl⟩
          · rintro ⟨rfl, rfl⟩; rfl
        by_cases hcase : j * w + i = y * w + x
        · -- this is exactly the cell the head element lands in
          have hij : i = px ∧ j = py := hidx.mp (by omega)
          rw [if_neg (by omega),
            if_pos (show (↑i : Int) = ↑px ∧ (↑j : Int) = ↑py by
              exact ⟨by exact_mod_cast congrArg Nat.cast hij.1,
                by exact_mod_cast congrArg Nat.cast hij.2⟩),
            if_pos (by simp only [List.length_cons]; omega)]
          have hz : j * w + i - (y * w + x) = 0 := by omega
          rw [hz]
          rfl
        · have hij : ¬ ((↑i : Int) = ↑px ∧ (↑j : Int) = ↑py) := by
            intro hc
            have : i = px ∧ j = py := ⟨by exact_mod_cast hc.1, by exact_mod_cast hc.2⟩
            exact hcase (by rw [this.1, this.2] at *; omega)
          rw [if_neg hij]
          by_cases hrange : y * w + x ≤ j * w + i ∧
              j * w + i < y * w + x + (item :: rest).length ∧ j * w + i < w * h
          · rw [if_pos (by simp only [List.length_cons] at hrange ⊢; omega),
              if_pos hrange]
            have hsucc : j * w + i - (y * w + x) =
                (j * w + i - (y * w + x + 1)) + 1 := by omega
            rw [hsucc, List.getD_cons_succ]
            have hidxeq : j * w + i - (py * w + (px + 1)) =
                j * w + i - (y * w + x + 1) := by omega
            rw [hidxeq]
          · rw [if_neg (by simp only [List.length_cons] at hrange ⊢; omega),
              if_neg hrange]
    · -- the grid is already full: the next `set` throws
      have hfull : y * w + x = w * h := by omega
      have hoob : ∀ px py : Nat,
          (if x + 1 > g.size.x then ((0:Nat), y + 1) else (x, y)) = (px, py) →
          g.OOB ↑px ↑py := by
        intro px py hpeq
        by_cases hxw : x + 1 > g.size.x
        · rw [if_pos hxw] at hpeq
          cases hpeq
          rw [hsx] at hxw
          rcases Nat.eq_zero_or_pos w with hw0 | hw
          · unfold OOB
            rw [hsx, hw0]
            left; omega
          · have hxeq : x = w := by omega
            have hy1 : y + 1 = h := by
              have h2 : (y + 1) * w = h * w := by
                rw [Nat.add_mul, Nat.one_mul, Nat.mul_comm h w]
                omega
              exact Nat.eq_of_mul_eq_mul_right hw h2
            unfold OOB
            rw [hsy]
            right; right; left
            omega
        · rw [if_neg hxw] at hpeq
          cases hpeq
          rw [hsx] at hxw
          have hyge : h ≤ y := by
            by_contra hyl
            push_neg at hyl
            have h1 : y * w + x < h * w := by
              calc y * w + x < y * w + w := by omega
                _ = (y + 1) * w := by ring
                _ ≤ h * w := Nat.mul_le_mul_right w hyl
            rw [Nat.mul_comm h w] at h1
            omega
          unfold OOB
          rw [hsy]
          right; right; left; omega
      obtain ⟨px, py, hpeq⟩ :
          ∃ px py,
            (if x + 1 > g.size.x then ((0:Nat), y + 1) else (x, y)) = (px, py) :=
        ⟨_, _, rfl⟩
      have hthrow := set_oob item (hoob px py hpeq)
      have hstep : setDataAux g x y (item :: rest) =
          (g, some (oobMessage g.size.x g.size.y ↑px ↑py)) := by
        simp only [setDataAux, hpeq, hthrow]
      rw [hstep]
      refine ⟨rfl, rfl, hwf, ?_, ?_⟩
      · simp only [List.length_cons]
        constructor
        · intro hc; exact absurd hc (by simp)
        · intro hle; exfalso; omega
      · intro i j hi hj
        rw [if_neg (by omega)]

/-- `setData` on a freshly constructed grid: succeeds exactly when the
input fits, and afterwards the cell `(i, j)` holds the element with
linear index `j * w + i` when one was placed there, and the default
value otherwise. -/
theorem setData_make_spec {T : Type} (w h : Nat) (d : T) (a : List T) :
    ((make w h d).setData a).1.size = ⟨w, h⟩ ∧
    ((make w h d).setData a).1.defaultValue = d ∧
    ((make w h d).setData a).1.Wf ∧
    (((make w h d).setData a).2 = none ↔ a.length ≤ w * h) ∧
    (∀ i j : Nat, i < w → j < h →
      ((make w h d).setData a).1.get ↑i ↑j =
        if j * w + i < a.length ∧ j * w + i < w * h then a.getD (j * w + i) d
        else d) := by
  obtain ⟨h1, h2, h3, h4, h5⟩ :=
    @setDataAux_spec T w h a (make w h d) 0 0 (wf_make w h d) rfl rfl
      (Nat.zero_le w) (by omega)
  refine ⟨h1, h2, h3, ?_, ?_⟩
  · unfold setData
    rw [h4]
    omega
  · intro i j hi hj
    unfold setData
    rw [h5 i j hi hj, get_make]
    by_cases hcond : j * w + i < a.length ∧ j * w + i < w * h
    · rw [if_pos (by omega), if_pos hcond]
      congr 1
      omega
    · rw [if_neg (by omega), if_neg hcond]

/-- The flattening of a rectangular double `range` loop as a single
`range` over linear indices. -/
theorem flatMap_range_eq {α : Type} (y : Nat) (f : Nat → Nat → α) :
    ∀ x : Nat,
      (List.range x).flatMap (fun i => (List.range y).map fun j => f i j) =
        (List.range (x * y)).map fun k => f (k / y) (k % y) := by
  intro x
  induction x with
  | zero => simp
  | succ x ihx =>
    rw [List.range_succ, List.flatMap_append, ihx, Nat.succ_mul, List.range_add,
      List.map_append, List.map_map]
    congr 1
    simp only [List.flatMap_cons, List.flatMap_nil, List.append_nil]
    apply List.map_congr_left
    intro j hj
    rw [List.mem_range] at hj
    simp only [Function.comp_apply]
    rw [Nat.mul_comm x y, Nat.mul_add_div (by omega), Nat.mul_add_mod,
      Nat.div_eq_of_lt hj, Nat.mod_eq_of_lt hj, Nat.add_zero]

/-- `contents` laid out by linear index: the `k`-th yielded triple is
`(k / h, k % h, get (k / h) (k % h))`. -/
theorem contents_eq (g : Grid T) :
    g.contents = (List.range (g.size.x * g.size.y)).map
      fun k => (k / g.size.y, k % g.size.y,
        g.get ↑(k / g.size.y) ↑(k % g.size.y)) := by
  unfold contents
  exact flatMap_range_eq g.size.y _ g.size.x

theorem length_contents (g : Grid T) :
    g.contents.length = g.size.x * g.size.y := by
  rw [contents_eq]
  simp

theorem contents_getElem? (g : Grid T) (k : Nat) (hk : k < g.size.x * g.size.y) :
    g.contents[k]? = some (k / g.size.y, k % g.size.y,
      g.get ↑(k / g.size.y) ↑(k % g.size.y)) := by
  rw [contents_eq, List.getElem?_map, List.getElem?_range hk]
  rfl

theorem contents_coords_nodup (g : Grid T) :
    (g.contents.map fun t => (t.1, t.2.1)).Nodup := by
  rw [contents_eq, List.map_map]
  apply List.Nodup.map_on ?_ (List.nodup_range _)
  intro k1 h1 k2 h2 he
  simp only [Function.comp_apply, Prod.mk.injEq] at he
  have e1 := Nat.div_add_mod k1 g.size.y
  have e2 := Nat.div_add_mod k2 g.size.y
  rw [he.1, he.2] at e1
  omega

theorem mem_contents (g : Grid T) (i j : Nat)
    (hi : i < g.size.x) (hj : j < g.size.y) :
    (i, j, g.get ↑i ↑j) ∈ g.contents := by
  have hk : i * g.size.y + j < g.size.x * g.size.y := by
    calc i * g.size.y + j < i * g.size.y + g.size.y := by omega
      _ = (i + 1) * g.size.y := by ring
      _ ≤ g.size.x * g.size.y := Nat.mul_le_mul_right g.size.y hi
  have hdiv : (i * g.size.y + j) / g.size.y = i := by
    rw [Nat.mul_comm i g.size.y, Nat.mul_add_div (by omega),
      Nat.div_eq_of_lt hj, Nat.add_zero]
  have hmod : (i * g.size.y + j) % g.size.y = j := by
    rw [Nat.mul_comm i g.size.y, Nat.mul_add_mod, Nat.mod_eq_of_lt hj]
  have hsome := contents_getElem? g (i * g.size.y + j) hk
  rw [hdiv, hmod] at hsome
  exact List.getElem?_mem hsome

end Grid

theorem mapIdxE_ok_spec {α β : Type} (f : Nat → α → Except String β) :
    ∀ (l : List α) (start : Nat) (res : List β),
      mapIdxE f start l = .ok res →
      res.length = l.length ∧
      ∀ k (hk : k < l.length) (hk2 : k < res.length),
        f (start + k) (l.get ⟨k, hk⟩) = .ok (res.get ⟨k, hk2⟩) := by
  intro l
  induction l with
  | nil =>
    intro start res h
    rw [mapIdxE] at h
    cases h
    exact ⟨rfl, fun k hk _ => absurd hk (by simp)⟩
  | cons a rest ih =>
    intro start res h
    rw [mapIdxE] at h
    cases hf : f start a with
    | error e => simp only [hf] at h; cases h
    | ok b =>
      cases hrest : mapIdxE f (start + 1) rest with
      | error e => simp only [hf, hrest] at h; cases h
      | ok others =>
        simp only [hf, hrest] at h
        injection h with h
        subst h
        obtain ⟨hlen, hcells⟩ := ih (start + 1) others hrest
        refine ⟨by simp [hlen], ?_⟩
        intro k hk hk2
        cases k with
        | zero => simpa using hf
        | succ k =>
          have hc := hcells k (by simpa using hk) (by simpa using hk2)
          have harith : start + 1 + k = start + (k + 1) := by omega
          rw [harith] at hc
          simpa using hc

theorem mapIdxE_error_spec {α β : Type} (f : Nat → α → Except String β) :
    ∀ (l : List α) (start i : Nat) (hi : i < l.length) (e : String),
      f (start + i) (l.get ⟨i, hi⟩) = .error e →
      (∀ j (hj : j < i), (f (start + j) (l.get ⟨j, by omega⟩)).isOk = true) →
      mapIdxE f start l = .error e := by
  intro l
  induction l with
  | nil =>
    intro start i hi
    exact absurd hi (by simp)
  | cons a rest ih =>
    intro start i hi e hf hpre
    cases i with
    | zero =>
      have hf2 : f start a = .error e := hf
      rw [mapIdxE]
      simp only [hf2]
    | succ i =>
      have h0 : (f start a).isOk = true := hpre 0 (by omega)
      cases hf0 : f start a with
      | error e0 =>
        rw [hf0] at h0
        simp [Except.isOk, Except.toBool] at h0
      | ok b =>
        have hi2 : i < rest.length := by simpa using hi
        have hf2 : f (start + 1 + i) (rest.get ⟨i, hi2⟩) = .error e := by
          have harith : start + 1 + i = start + (i + 1) := by omega
          rw [harith]
          exact hf
        have hpre2 : ∀ j (hj : j < i),
            (f (start + 1 + j) (rest.get ⟨j, by omega⟩)).isOk = true := by
          intro j hj
          have harith : start + 1 + j = start + (j + 1) := by omega
          rw [harith]
          exact hpre (j + 1) (by omega)
        have hrec := ih (start + 1) i hi2 e hf2 hpre2
        rw [mapIdxE]
        simp only [hf0, hrec]

/-- A successfully resolved level layer always carries the project layer
definition found for its `_eid`. -/
theorem resolveLevelLayer_ok_projectLayer (projectLayers : List OgmoProjectLayer)
    (index : Nat) (layer : RawLevelLayer) (ll : OgmoLevelLayer)
    (h : resolveLevelLayer projectLayers index layer = .ok ll) :
    projectLayers.find? (fun pl => pl.exportID == layer.eid) = some ll.projectLayer := by
  unfold resolveLevelLayer at h
  cases hfind : projectLayers.find? (fun pl => pl.exportID == layer.eid) with
  | none => simp only [hfind] at h; cases h
  | some pl =>
    simp only [hfind] at h
    cases pl with
    | tile name gridSize exportID exportMode arrayMode defaultTileset =>
      cases hset : ((Grid.make layer.gridCellsX layer.gridCellsY 0).setData layer.data).2 with
      | some e => simp only [hset] at h; cases h
      | none =>
        simp only [hset] at h
        injection h with h
        subst h
        rfl
    | grid name gridSize exportID arrayMode legend =>
      cases hset : ((Grid.make layer.gridCellsX layer.gridCellsY "").setData layer.grid).2 with
      | some e => simp only [hset] at h; cases h
      | none =>
        simp only [hset] at h
        injection h with h
        subst h
        rfl
    | entity name gridSize exportID requiredTags excludedTags =>
      injection h with h
      subst h
      rfl
    | decal name gridSize exportID includeImageSequence scaleable rotatable values =>
      injection h with h
      subst h
      rfl

/-- When no project layer's `exportID` matches, `resolveLevelLayer`
throws the unresolved-layer message. -/
theorem resolveLevelLayer_error (projectLayers : List OgmoProjectLayer)
    (index : Nat) (layer : RawLevelLayer)
    (h : ∀ pl ∈ projectLayers, pl.exportID ≠ layer.eid) :
    resolveLevelLayer projectLayers index layer =
      .error (unresolvedLayerMessage index layer.eid) := by
  unfold resolveLevelLayer
  have hfind : projectLayers.find? (fun pl => pl.exportID == layer.eid) = none := by
    rw [List.find?_eq_none]
    intro pl hpl
    simpa using h pl hpl
  rw [hfind]

/-- The linear index of an in-bounds cell is below the grid capacity. -/
theorem linIdx_lt {w h i j : Nat} (hi : i < w) (hj : j < h) :
    j * w + i < w * h := by
  have h1 : (j + 1) * w ≤ h * w := Nat.mul_le_mul_right w hj
  have h2 : (j + 1) * w = j * w + w := by ring
  have h3 : h * w = w * h := Nat.mul_comm h w
  omega

/-- A tile-kind project layer whose default tileset label matches no
tileset makes `parseProjectLayer` throw the unresolved-tileset message. -/
theorem parseProjectLayer_tile_error (tilesets : List OgmoTileset) (index : Nat)
    (layer : RawProjectLayer) (hkind : layer.definition = .tile)
    (h : ∀ t ∈ tilesets, t.label ≠ layer.defaultTileset) :
    parseProjectLayer tilesets index layer =
      .error (unresolvedTilesetMessage index layer.defaultTileset) := by
  unfold parseProjectLayer
  rw [hkind]
  have hfind : tilesets.find? (fun t => t.label == layer.defaultTileset) = none := by
    rw [List.find?_eq_none]
    intro t ht
    simpa using h t ht
  rw [hfind]

/-- A successfully parsed tile-kind project layer carries the tileset
found for its default tileset label. -/
theorem parseProjectLayer_tile_ok (tilesets : List OgmoTileset) (index : Nat)
    (layer : RawProjectLayer) (pl : OgmoProjectLayer)
    (hkind : layer.definition = .tile)
    (h : parseProjectLayer tilesets index layer = .ok pl) :
    ∃ ts, tilesets.find? (fun t => t.label == layer.defaultTileset) = some ts ∧
      pl.defaultTilesetOf = some ts := by
  unfold parseProjectLayer at h
  rw [hkind] at h
  cases hfind : tilesets.find? (fun t => t.label == layer.defaultTileset) with
  | none => simp only [hfind] at h; cases h
  | some ts =>
    simp only [hfind] at h
    injection h with h
    subst h
    exact ⟨ts, rfl, rfl⟩

end HexEngine

/-! ## Claim theorems -/

namespace HexEngine

/-- C1: the claim states that both constructor overloads produce a grid
whose stored `defaultValue` is the supplied default and whose every
in-bounds cell reads back the supplied default.  That holds for the
`(rows, columns, defaultValue)` overload, but the code breaks it for the
`(extent, defaultValue)` overload: its dispatch branch reads
`maybeDefaultValue` — the third argument, which the two-argument overload
(declared `(rowsAndCols: Point, defaultValue: T)`) never supplies — so
the supplied default `7` is ignored and the grid stores and is filled
with `undefined` (`none`).  Evaluated here at `new Grid(new Point(2, 3), 7)`. -/
theorem C1_constructor_point_overload_bug :
    ((Grid.constructRC 2 3 (7 : Int)).defaultValue = some 7 ∧
      (Grid.constructRC 2 3 (7 : Int)).get 0 0 = some 7) ∧
    (Grid.constructPt ⟨2, 3⟩ (7 : Int)).defaultValue = none ∧
    (Grid.constructPt ⟨2, 3⟩ (7 : Int)).get 0 0 = none ∧
    (Grid.constructPt ⟨2, 3⟩ (7 : Int)).defaultValue ≠ some 7 := by
  refine ⟨⟨rfl, by decide⟩, rfl, by decide, by decide⟩

/-- C2: `setData` walks a cursor from `(0,0)`, wrapping to the next row
on width overflow, so the cell `(i, j)` receives the input element with
linear index `j * w + i`: concretely `Grid(3, 2, 0)` loaded with
`[1,2,3,4,5,6]` reads back `get(0,0)=1, get(1,0)=2, get(2,0)=3,
get(0,1)=4, get(1,1)=5, get(2,1)=6`; an input shorter than `w * h`
leaves trailing cells at the default (the `getD` fallback), and a longer
input makes `setData` throw an out-of-bounds `set` error. -/
theorem C2_setData_row_wrap :
    (((Grid.make 3 2 (0 : Int)).setData [1, 2, 3, 4, 5, 6]).2 = none ∧
      ((Grid.make 3 2 (0 : Int)).setData [1, 2, 3, 4, 5, 6]).1.get 0 0 = 1 ∧
      ((Grid.make 3 2 (0 : Int)).setData [1, 2, 3, 4, 5, 6]).1.get 1 0 = 2 ∧
      ((Grid.make 3 2 (0 : Int)).setData [1, 2, 3, 4, 5, 6]).1.get 2 0 = 3 ∧
      ((Grid.make 3 2 (0 : Int)).setData [1, 2, 3, 4, 5, 6]).1.get 0 1 = 4 ∧
      ((Grid.make 3 2 (0 : Int)).setData [1, 2, 3, 4, 5, 6]).1.get 1 1 = 5 ∧
      ((Grid.make 3 2 (0 : Int)).setData [1, 2, 3, 4, 5, 6]).1.get 2 1 = 6) ∧
    (∀ (T : Type) (w h : Nat) (d : T) (a : List T),
      a.length ≤ w * h →
      ((Grid.make w h d).setData a).2 = none ∧
      ∀ i j : Nat, i < w → j < h →
        ((Grid.make w h d).setData a).1.get ↑i ↑j = a.getD (j * w + i) d) ∧
    (∀ (T : Type) (w h : Nat) (d : T) (a : List T),
      a.length > w * h →
      ∃ e, ((Grid.make w h d).setData a).2 = some e) := by
  refine ⟨by decide, ?_, ?_⟩
  · intro T w h d a hlen
    obtain ⟨h1, h2, h3, h4, h5⟩ := Grid.setData_make_spec w h d a
    refine ⟨h4.mpr hlen, ?_⟩
    intro i j hi hj
    rw [h5 i j hi hj]
    by_cases hidx : j * w + i < a.length
    · rw [if_pos ⟨hidx, linIdx_lt hi hj⟩]
    · rw [if_neg (by tauto), List.getD_eq_default _ _ (by omega)]
  · intro T w h d a hlen
    obtain ⟨h1, h2, h3, h4, h5⟩ := Grid.setData_make_spec w h d a
    cases hres : ((Grid.make w h d).setData a).2 with
    | none => exact absurd (h4.mp hres) (by omega)
    | some e => exact ⟨e, rfl⟩

/-- Witness for C2: a 2×2 grid loaded with three elements succeeds, cell
`(0, 1)` holds the element with linear index `1 * 2 + 0 = 2`, and a 1×1
grid loaded with two elements fails. -/
theorem C2_setData_row_wrap_witness :
    ((Grid.make 2 2 (0 : Int)).setData [7, 8, 9]).2 = none ∧
    ((Grid.make 2 2 (0 : Int)).setData [7, 8, 9]).1.get 0 1 = 9 ∧
    ∃ e, ((Grid.make 1 1 (0 : Int)).setData [1, 2]).2 = some e := by
  refine ⟨(C2_setData_row_wrap.2.1 Int 2 2 0 [7, 8, 9] (by decide)).1, ?_,
    C2_setData_row_wrap.2.2 Int 1 1 0 [1, 2] (by decide)⟩
  have h := (C2_setData_row_wrap.2.1 Int 2 2 0 [7, 8, 9] (by decide)).2 0 1
    (by decide) (by decide)
  simpa using h

/-- C3 counterexample: the claim asserts that for an exactly-fitting
input the `k`-th value yielded by `contents()` equals the `k`-th input
element.  For `Grid(3, 2, 0)` loaded with `[1,2,3,4,5,6]` the traversal
yields values `[1,4,2,5,3,6]` (already its second value is `4`, not
`2`), because `setData` fills row-major over the width while `contents`
iterates the width index in its outer loop. -/
theorem C3_roundtrip_counterexample :
    (((Grid.make 3 2 (0 : Int)).setData [1, 2, 3, 4, 5, 6]).2 = none) ∧
    ((((Grid.make 3 2 (0 : Int)).setData [1, 2, 3, 4, 5, 6]).1.contents.map
      fun t => t.2.2) = [1, 4, 2, 5, 3, 6]) ∧
    ([1, 4, 2, 5, 3, 6] ≠ ([1, 2, 3, 4, 5, 6] : List Int)) := by
  exact ⟨by decide, by decide, by decide⟩

/-- C3 amended: loading a flat array of length exactly `w * h` succeeds,
and reading back via `contents()` reproduces the original array under
*transposed* indexing: the `k`-th yielded value is the input element at
index `(k % h) * w + (k / h)` — equivalently, the triple for cell
`(i, j)` carries `a[j * w + i]`. -/
theorem C3_roundtrip_transposed {T : Type} (w h : Nat) (d : T) (a : List T)
    (hlen : a.length = w * h) :
    ((Grid.make w h d).setData a).2 = none ∧
    ∀ k : Nat, k < w * h →
      (((Grid.make w h d).setData a).1.contents.map fun t => t.2.2)[k]? =
        some (a.getD ((k % h) * w + k / h) d) := by
  obtain ⟨h1, h2, h3, h4, h5⟩ := Grid.setData_make_spec w h d a
  refine ⟨h4.mpr (by omega), ?_⟩
  intro k hk
  have hh : 0 < h := by
    rcases Nat.eq_zero_or_pos h with rfl | hh
    · rw [Nat.mul_zero] at hk; omega
    · exact hh
  have hiw : k / h < w := by
    rw [Nat.div_lt_iff_lt_mul hh]
    omega
  have hjh : k % h < h := Nat.mod_lt _ hh
  have hsx : ((Grid.make w h d).setData a).1.size.x = w := by rw [h1]
  have hsy : ((Grid.make w h d).setData a).1.size.y = h := by rw [h1]
  have hcont := Grid.contents_getElem? ((Grid.make w h d).setData a).1 k
    (by rw [hsx, hsy]; omega)
  rw [List.getElem?_map, hcont, hsy]
  have hcell := h5 (k / h) (k % h) hiw hjh
  simp only [Option.map]
  rw [hcell, if_pos ⟨by rw [hlen]; exact linIdx_lt hiw hjh, linIdx_lt hiw hjh⟩]

/-- Witness for C3's amended theorem: for `Grid(3, 2, 0)` and input
`[1,2,3,4,5,6]`, the load succeeds and the second yielded value
(`k = 1`) is the input element at `(1 % 2) * 3 + 1 / 2 = 3`, i.e. `4`. -/
theorem C3_roundtrip_transposed_witness :
    (((Grid.make 3 2 (0 : Int)).setData [1, 2, 3, 4, 5, 6]).2 = none) ∧
    ((((Grid.make 3 2 (0 : Int)).setData [1, 2, 3, 4, 5, 6]).1.contents.map
      fun t => t.2.2)[1]? = some 4) := by
  refine ⟨(C3_roundtrip_transposed 3 2 (0 : Int) [1, 2, 3, 4, 5, 6] (by decide)).1, ?_⟩
  have h := (C3_roundtrip_transposed 3 2 (0 : Int) [1, 2, 3, 4, 5, 6] (by decide)).2 1
    (by decide)
  exact h.trans (by decide)

/-- C4: reads outside `[0, size.x) × [0, size.y)` return the stored
default and never fail; writes outside the bounds fail with the exact
out-of-bounds message naming the grid size and the offending
coordinates, while in-bounds writes throw nothing and are read back by
`get`. -/
theorem C4_get_set_bounds {T : Type} (g : Grid T) (hwf : g.Wf)
    (row column : Int) (v : T) :
    ((row < 0 ∨ (g.size.x : Int) ≤ row ∨ column < 0 ∨ (g.size.y : Int) ≤ column) →
      g.get row column = g.defaultValue ∧
      g.set row column v = (g, some (Grid.oobMessage g.size.x g.size.y row column))) ∧
    ((0 ≤ row ∧ row < (g.size.x : Int) ∧ 0 ≤ column ∧ column < (g.size.y : Int)) →
      (g.set row column v).2 = none ∧
      (g.set row column v).1.get row column = v) := by
  constructor
  · intro h
    have hoob : g.OOB row column := by unfold Grid.OOB; omega
    exact ⟨Grid.get_oob hoob, Grid.set_oob v hoob⟩
  · intro h
    have hin : ¬ g.OOB row column :=
      Grid.not_oob_iff.mpr ⟨h.1, h.2.1, h.2.2.1, h.2.2.2⟩
    refine ⟨by rw [Grid.set_inb v hin], ?_⟩
    rw [Grid.get_set_fst hwf hin v row column,
      if_pos (show row = row ∧ column = column from ⟨rfl, rfl⟩)]

/-- Witness for C4 on a concrete 2×2 grid: the out-of-range read `(5, 0)`
returns the default, the matching write fails with the exact message,
and the in-bounds write at `(1, 1)` succeeds and reads back. -/
theorem C4_get_set_bounds_witness :
    (Grid.make 2 2 (0 : Int)).get 5 0 = 0 ∧
    (Grid.make 2 2 (0 : Int)).set 5 0 9 =
      (Grid.make 2 2 (0 : Int), some (Grid.oobMessage 2 2 5 0)) ∧
    ((Grid.make 2 2 (0 : Int)).set 1 1 9).2 = none ∧
    ((Grid.make 2 2 (0 : Int)).set 1 1 9).1.get 1 1 = 9 := by
  have h1 := (C4_get_set_bounds (Grid.make 2 2 (0 : Int)) (by decide) 5 0 9).1
    (by decide)
  have h2 := (C4_get_set_bounds (Grid.make 2 2 (0 : Int)) (by decide) 1 1 9).2
    (by decide)
  exact ⟨h1.1, h1.2, h2.1, h2.2⟩

/-- C5: during layer realization, the record handed to the entity
factory carries the source rotation converted from degrees to radians
(`rotation_degrees * π / 180`, with an absent rotation yielding `0`;
`Math.PI` is the opaque parameter `pi`), so `rotation: 90` becomes
`pi / 2`; a decal record reaches the decal realizer unchanged, and the
default decal realizer hands the raw rotation to its geometry without
any unit conversion, so `rotation: 1.2` stays exactly `1.2 = 6/5`. -/
theorem C5_rotation_units (pi : Rat) (e : OgmoEntityData) (d : OgmoDecalData) :
    (realizeEntityPlacement pi e).rotation =
      some ((e.rotation.getD 0) * (pi / 180)) ∧
    (realizeEntityPlacement pi { e with rotation := some 90 }).rotation =
      some (pi / 2) ∧
    (ogmoDecalGeometry d).rotation = d.rotation ∧
    (ogmoDecalGeometry { d with rotation := some (6 / 5) }).rotation =
      some (6 / 5) := by
  refine ⟨?_, ?_, rfl, rfl⟩
  · unfold realizeEntityPlacement
    cases hr : e.rotation with
    | none => simp [hr]
    | some r =>
      simp only [hr, Option.getD_some]
      by_cases hz : r = 0
      · subst hz
        simp
      · rw [if_neg hz]
  · unfold realizeEntityPlacement
    simp only
    rw [if_neg (by norm_num)]
    congr 1
    ring

/-- C8: `project.createEntity` on a placement record whose name has no
registered factory throws the exact message naming that entity name;
when a factory is registered under the name, it is invoked on the record
and its result is returned. -/
theorem C8_entity_factory {E : Type}
    (entityFactories : List (String × (OgmoEntityData → E)))
    (data : OgmoEntityData) :
    ((∀ p ∈ entityFactories, p.1 ≠ data.name) →
      createEntity entityFactories data =
        .error (noFactoryMessage data.name)) ∧
    (∀ f, entityFactories.find? (fun p => p.1 == data.name) = some f →
      createEntity entityFactories data = .ok (f.2 data)) := by
  constructor
  · intro h
    unfold createEntity
    have hfind : entityFactories.find? (fun p => p.1 == data.name) = none := by
      rw [List.find?_eq_none]
      intro p hp
      simpa using h p hp
    rw [hfind]
  · intro f h
    unfold createEntity
    rw [h]

/-- Witness for C8: with only a `"ghost"` factory registered, creating a
`"blob"` entity throws the message naming `"blob"`, and creating a
`"ghost"` entity invokes the registered factory on the record. -/
theorem C8_entity_factory_witness :
    @createEntity String [("ghost", fun entData => entData.name ++ "!")]
      (sampleEntity "blob") =
      .error "No Ogmo entity factory defined for: blob" ∧
    @createEntity String [("ghost", fun entData => entData.name ++ "!")]
      (sampleEntity "ghost") = .ok "ghost!" := by
  constructor
  · exact (C8_entity_factory [("ghost", fun entData => entData.name ++ "!")]
      (sampleEntity "blob")).1 (by decide)
  · exact (C8_entity_factory [("ghost", fun entData => entData.name ++ "!")]
      (sampleEntity "ghost")).2 ("ghost", fun entData => entData.name ++ "!") rfl

/-- C9: one `contents()` traversal yields exactly `size.x * size.y`
triples; the `k`-th triple is `(k / size.y, k % size.y, get(...))`
(outer loop over the first coordinate, inner loop over the second), each
in-bounds coordinate pair occurs exactly once (it occurs, and the
coordinate projection of the traversal has no duplicates), and every
value equals `get` at its coordinates.  The embedding of the generator
is a pure list, which also renders the fresh-traversal/no-shared-cursor
behaviour: every call denotes this same list. -/
theorem C9_contents_traversal {T : Type} (g : Grid T) :
    g.contents.length = g.size.x * g.size.y ∧
    (∀ k : Nat, k < g.size.x * g.size.y →
      g.contents[k]? = some (k / g.size.y, k % g.size.y,
        g.get ↑(k / g.size.y) ↑(k % g.size.y))) ∧
    (∀ i j : Nat, i < g.size.x → j < g.size.y →
      (i, j, g.get ↑i ↑j) ∈ g.contents) ∧
    (g.contents.map fun t => (t.1, t.2.1)).Nodup := by
  exact ⟨Grid.length_contents g,
    fun k hk => Grid.contents_getElem? g k hk,
    fun i j hi hj => Grid.mem_contents g i j hi hj,
    Grid.contents_coords_nodup g⟩

/-- Witness for C9 on a fresh 2×3 grid: six triples, the fifth
(`k = 4`) is `(1, 1, 5)`, and the cell `(0, 2)` occurs. -/
theorem C9_contents_traversal_witness :
    (Grid.make 2 3 (5 : Int)).contents.length = 6 ∧
    (Grid.make 2 3 (5 : Int)).contents[4]? = some (1, 1, 5) ∧
    (0, 2, (5 : Int)) ∈ (Grid.make 2 3 (5 : Int)).contents := by
  obtain ⟨hlen, hidx, hmem, hnd⟩ := C9_contents_traversal (Grid.make 2 3 (5 : Int))
  refine ⟨hlen.trans (by decide), ?_, ?_⟩
  · exact (hidx 4 (by decide)).trans (by decide)
  · have h := hmem 0 2 (by decide) (by decide)
    have hv : (Grid.make 2 3 (5 : Int)).get ↑(0 : Nat) ↑(2 : Nat) = 5 := by decide
    rwa [hv] at h

/-- C10: a failing `set` is atomic — the bounds check precedes the
write, so the state after the failed call is the unchanged grid (hence
size, default value and every cell read are unchanged) together with the
thrown message; consequently a `setData` whose input overruns the grid
capacity leaves every in-bounds cell holding exactly the prefix element
with its linear index, placed before the failing write. -/
theorem C10_failed_set_atomic {T : Type} :
    (∀ (g : Grid T) (row column : Int) (v : T),
      (row < 0 ∨ (g.size.x : Int) ≤ row ∨ column < 0 ∨ (g.size.y : Int) ≤ column) →
      (g.set row column v).1 = g ∧ (g.set row column v).2.isSome = true) ∧
    (∀ (w h : Nat) (d : T) (a : List T), a.length > w * h →
      ((Grid.make w h d).setData a).2.isSome = true ∧
      ∀ i j : Nat, i < w → j < h →
        ((Grid.make w h d).setData a).1.get ↑i ↑j = a.getD (j * w + i) d) := by
  constructor
  · intro g row column v h
    have hoob : g.OOB row column := by unfold Grid.OOB; omega
    rw [Grid.set_oob v hoob]
    exact ⟨rfl, rfl⟩
  · intro w h d a hlen
    obtain ⟨h1, h2, h3, h4, h5⟩ := Grid.setData_make_spec w h d a
    constructor
    · cases hres : ((Grid.make w h d).setData a).2 with
      | none => exact absurd (h4.mp hres) (by omega)
      | some e => rfl
    · intro i j hi hj
      rw [h5 i j hi hj, if_pos ⟨by have := linIdx_lt hi hj; omega, linIdx_lt hi hj⟩]

/-- Witness for C10: the failed write at `(0, 5)` leaves the fresh 2×2
grid unchanged, and loading five elements into it fails while cell
`(1, 1)` holds the prefix element with linear index `1 * 2 + 1 = 3`. -/
theorem C10_failed_set_atomic_witness :
    ((Grid.make 2 2 (0 : Int)).set 0 5 9).1 = Grid.make 2 2 (0 : Int) ∧
    ((Grid.make 2 2 (0 : Int)).setData [1, 2, 3, 4, 5]).2.isSome = true ∧
    ((Grid.make 2 2 (0 : Int)).setData [1, 2, 3, 4, 5]).1.get 1 1 = 4 := by
  have h1 := (@C10_failed_set_atomic Int).1 (Grid.make 2 2 (0 : Int)) 0 5 9 (by decide)
  have h2 := (@C10_failed_set_atomic Int).2 2 2 0 [1, 2, 3, 4, 5] (by decide)
  refine ⟨h1.1, h2.1, ?_⟩
  exact (h2.2 1 1 (by decide) (by decide)).trans (by decide)

/-- C6: constructing a level against a project's layer definitions fails
with the exact message naming the layer index and the offending `_eid`
whenever that layer's `_eid` matches no project layer's `exportID` (and
every earlier layer resolved without throwing, since the first thrown
error wins); and whenever construction succeeds, every resulting level
layer carries exactly the project layer definition found for its
`_eid`. -/
theorem C6_level_layer_resolution (projectLayers : List OgmoProjectLayer)
    (levelData : RawLevel) :
    (∀ (i : Nat) (hi : i < levelData.layers.length),
      (∀ pl ∈ projectLayers, pl.exportID ≠ (levelData.layers.get ⟨i, hi⟩).eid) →
      (∀ j (hj : j < i),
        (resolveLevelLayer projectLayers j
          (levelData.layers.get ⟨j, by omega⟩)).isOk = true) →
      ogmoLevel projectLayers levelData =
        .error (unresolvedLayerMessage i (levelData.layers.get ⟨i, hi⟩).eid)) ∧
    (∀ level, ogmoLevel projectLayers levelData = .ok level →
      level.layers.length = levelData.layers.length ∧
      ∀ (i : Nat) (hi : i < levelData.layers.length)
        (hi2 : i < level.layers.length),
        projectLayers.find?
            (fun pl => pl.exportID == (levelData.layers.get ⟨i, hi⟩).eid) =
          some ((level.layers.get ⟨i, hi2⟩).projectLayer)) := by
  constructor
  · intro i hi hnone hpre
    have herr := resolveLevelLayer_error projectLayers i
      (levelData.layers.get ⟨i, hi⟩) hnone
    have hmap := mapIdxE_error_spec (resolveLevelLayer projectLayers)
      levelData.layers 0 i hi _ (by rw [Nat.zero_add]; exact herr)
      (fun j hj => by rw [Nat.zero_add]; exact hpre j hj)
    unfold ogmoLevel resolveLevelLayers
    rw [hmap]
  · intro level hok
    unfold ogmoLevel at hok
    cases hmap : resolveLevelLayers projectLayers levelData.layers with
    | error e => simp only [hmap] at hok; cases hok
    | ok layers =>
      simp only [hmap] at hok
      injection hok with hok
      subst hok
      obtain ⟨hlen, hcells⟩ := mapIdxE_ok_spec (resolveLevelLayer projectLayers)
        levelData.layers 0 layers hmap
      refine ⟨hlen, ?_⟩
      intro i hi hi2
      exact resolveLevelLayer_ok_projectLayer projectLayers (0 + i) _ _
        (hcells i hi hi2)

/-- Witness for C6: a level with a single layer tagged `_eid = "zzz"`,
built against a project whose only layer exports `"e1"`, fails with the
message naming index `0` and `"zzz"`. -/
theorem C6_level_layer_resolution_witness :
    ogmoLevel [sampleProjectEntityLayer "e1"]
      (sampleRawLevel [sampleRawLevelLayer "zzz"]) =
      .error (unresolvedLayerMessage 0 "zzz") := by
  exact (C6_level_layer_resolution [sampleProjectEntityLayer "e1"]
    (sampleRawLevel [sampleRawLevelLayer "zzz"])).1 0 (by decide)
    (by decide) (fun j hj => absurd hj (by omega))

/-- C7: constructing a project fails with the exact message naming the
layer index and the missing label whenever a tile-kind layer definition
references a `defaultTileset` label matching none of the parsed tilesets
(and every earlier layer parsed without throwing, since the first thrown
error wins); and whenever construction succeeds, every tile-kind layer's
parsed definition carries the tileset found for its label. -/
theorem C7_project_tileset_resolution (projectData : RawProject) :
    (∀ (i : Nat) (hi : i < projectData.layers.length),
      (projectData.layers.get ⟨i, hi⟩).definition = .tile →
      (∀ t ∈ projectData.tilesets.map parseTileset,
        t.label ≠ (projectData.layers.get ⟨i, hi⟩).defaultTileset) →
      (∀ j (hj : j < i),
        (parseProjectLayer (projectData.tilesets.map parseTileset) j
          (projectData.layers.get ⟨j, by omega⟩)).isOk = true) →
      ogmoProject projectData =
        .error (unresolvedTilesetMessage i
          (projectData.layers.get ⟨i, hi⟩).defaultTileset)) ∧
    (∀ proj, ogmoProject projectData = .ok proj →
      proj.layers.length = projectData.layers.length ∧
      ∀ (i : Nat) (hi : i < projectData.layers.length)
        (hi2 : i < proj.layers.length),
        (projectData.layers.get ⟨i, hi⟩).definition = .tile →
        ∃ ts, (projectData.tilesets.map parseTileset).find?
            (fun t => t.label ==
              (projectData.layers.get ⟨i, hi⟩).defaultTileset) = some ts ∧
          (proj.layers.get ⟨i, hi2⟩).defaultTilesetOf = some ts) := by
  constructor
  · intro i hi hkind hnone hpre
    have herr := parseProjectLayer_tile_error
      (projectData.tilesets.map parseTileset) i
      (projectData.layers.get ⟨i, hi⟩) hkind hnone
    have hmap := mapIdxE_error_spec
      (parseProjectLayer (projectData.tilesets.map parseTileset))
      projectData.layers 0 i hi _ (by rw [Nat.zero_add]; exact herr)
      (fun j hj => by rw [Nat.zero_add]; exact hpre j hj)
    unfold ogmoProject parseProjectLayers
    simp only [hmap]
  · intro proj hok
    unfold ogmoProject at hok
    cases hmap : parseProjectLayers (projectData.tilesets.map parseTileset)
        projectData.layers with
    | error e => simp only [hmap] at hok; cases hok
    | ok layers =>
      simp only [hmap] at hok
      injection hok with hok
      subst hok
      obtain ⟨hlen, hcells⟩ := mapIdxE_ok_spec
        (parseProjectLayer (projectData.tilesets.map parseTileset))
        projectData.layers 0 layers hmap
      refine ⟨hlen, ?_⟩
      intro i hi hi2 hkind
      exact parseProjectLayer_tile_ok (projectData.tilesets.map parseTileset)
        (0 + i) _ _ hkind (hcells i hi hi2)

/-- Witness for C7: a project whose only tileset is labelled `"grass"`
and whose only layer is a tile layer referencing `"lava"` fails with the
message naming index `0` and `"lava"`. -/
theorem C7_project_tileset_resolution_witness :
    ogmoProject { tilesets := [sampleTileset "grass"],
                  layers := [sampleRawTileLayer "lava"] } =
      .error (unresolvedTilesetMessage 0 "lava") := by
  exact (C7_project_tileset_resolution
    { tilesets := [sampleTileset "grass"],
      layers := [sampleRawTileLayer "lava"] }).1 0 (by decide) (by decide)
    (by decide) (fun j hj => absurd hj (by omega))

end HexEngine
